import Mathlib

/-!
Verification of the credential-resolution and caching layer of
`docker-credential-ecr`: a shallow embedding of `authenticator.go`
(the token authenticator with its atomic credential cache) and of the
keychain file (`Resolve` with its double-checked cache population),
together with proofs of the spec's testable properties.

Go strings and byte slices are modelled as `List Nat` of byte values
(Go's `string(tokenBytes)` conversion is a byte-for-byte copy, and
`strings.Cut` operates on bytes, so this is exact). Go `time.Time` and
`time.Duration` are modelled as `Int` (nanoseconds since the zero time,
the ordering being all the code uses). Go nil-able pointers become
`Option`.
-/

set_option autoImplicit false

namespace ECR

/-- Byte strings: Go `[]byte` / `string` as a list of byte values. -/
abbrev Bytes := List Nat

/-- `aws.ToString`: dereference a possibly-nil `*string`, nil giving `""`. -/
def awsToString (s : Option Bytes) : Bytes := s.getD []

/-- `aws.ToTime`: dereference a possibly-nil `*time.Time`, nil giving the zero time. -/
def awsToTime (t : Option Int) : Int := t.getD 0

/-! ### base64 (Go `encoding/base64` StdEncoding) -/

/-- Decode one byte of the standard base64 alphabet to its 6-bit value
(`A`-`Z` → 0-25, `a`-`z` → 26-51, `0`-`9` → 52-61, `+` → 62, `/` → 63);
any other byte (including the pad byte `=` = 61) is rejected. -/
def charToSextet (c : Nat) : Option Nat :=
  if 65 ≤ c ∧ c ≤ 90 then some (c - 65)
  else if 97 ≤ c ∧ c ≤ 122 then some (c - 97 + 26)
  else if 48 ≤ c ∧ c ≤ 57 then some (c - 48 + 52)
  else if c = 43 then some 62
  else if c = 47 then some 63
  else none

/-- Encode a 6-bit value to its byte in the standard base64 alphabet. -/
def sextetToChar (n : Nat) : Nat :=
  if n < 26 then 65 + n
  else if n < 52 then 97 + (n - 26)
  else if n < 62 then 48 + (n - 52)
  else if n = 62 then 43
  else 47

/-- Decode whitespace-stripped standard base64 input four bytes at a time,
as Go's `base64.StdEncoding` decoder does: a final quantum `xx==` yields one
byte, `xxx=` yields two, a full quantum yields three; padding anywhere but
the end, a lone pad in the first two positions, or a byte outside the
alphabet is a `CorruptInputError` (here: `none`). Like Go's non-strict
`StdEncoding`, unused trailing bits in a padded quantum are not checked. -/
def b64DecodeAux : Bytes → Option Bytes
  | [] => some []
  | c1 :: c2 :: c3 :: c4 :: rest =>
    match charToSextet c1, charToSextet c2 with
    | some s1, some s2 =>
      if c4 = 61 then
        if rest = [] then
          if c3 = 61 then
            some [s1 * 4 + s2 / 16]
          else
            match charToSextet c3 with
            | some s3 => some [s1 * 4 + s2 / 16, (s2 % 16) * 16 + s3 / 4]
            | none => none
        else none
      else
        match charToSextet c3, charToSextet c4 with
        | some s3, some s4 =>
          match b64DecodeAux rest with
          | some bs =>
            some ((s1 * 4 + s2 / 16) :: ((s2 % 16) * 16 + s3 / 4) ::
                  ((s3 % 4) * 64 + s4) :: bs)
          | none => none
        | _, _ => none
    | _, _ => none
  | _ => none

/-- `base64.StdEncoding.DecodeString`: Go's decoder skips `\r` and `\n`
anywhere in the input, then consumes four-byte quanta. -/
def base64Decode (s : Bytes) : Option Bytes :=
  b64DecodeAux (s.filter (fun c => decide (c ≠ 10 ∧ c ≠ 13)))

/-- `base64.StdEncoding.EncodeToString`: three input bytes become four
alphabet bytes; a final partial group is padded with `=` (byte 61). -/
def base64Encode : Bytes → Bytes
  | [] => []
  | [b1] => [sextetToChar (b1 / 4), sextetToChar ((b1 % 4) * 16), 61, 61]
  | [b1, b2] => [sextetToChar (b1 / 4), sextetToChar ((b1 % 4) * 16 + b2 / 16),
                 sextetToChar ((b2 % 16) * 4), 61]
  | b1 :: b2 :: b3 :: rest =>
    sextetToChar (b1 / 4) :: sextetToChar ((b1 % 4) * 16 + b2 / 16) ::
    sextetToChar ((b2 % 16) * 4 + b3 / 64) :: sextetToChar (b3 % 64) ::
    base64Encode rest

/-! ### `strings.Cut` -/

/-- `strings.Cut(s, sep)` for a single-byte separator: split around the
first occurrence of `sep`, returning the text before and after it, or
`none` when `sep` does not appear (Go's `ok = false` case). -/
def cut (s : Bytes) (sep : Nat) : Option (Bytes × Bytes)
  := match s with
  | [] => none
  | c :: rest =>
    if c = sep then some ([], rest)
    else
      match cut rest sep with
      | some (before, after) => some (c :: before, after)
      | none => none

/-! ### Token authenticator (`authenticator.go`) -/

/-- `authn.AuthConfig` restricted to the fields this code sets: a
username/password pair. -/
structure AuthConfig where
  Username : Bytes
  Password : Bytes
deriving DecidableEq, Repr

/-- `cachedAuthConfig`: an `authn.AuthConfig` with an expiry time. -/
structure CachedAuthConfig where
  AuthConfig : AuthConfig
  ExpiresAt : Int
deriving DecidableEq, Repr

/-- The errors `Authorization` can return: the two produced by the bound
`funcGetAuthorizationToken` closures (a wrapped remote failure, and the
"returned no authorization data" error), and the two produced by
`Authorization` itself while decoding (invalid base64, missing `:`). -/
inductive AuthError where
  | fetchFailed (wrapped : Bytes)
  | noAuthorizationData
  | invalidToken
  | missingSeparator
deriving DecidableEq, Repr

/-- Fetch-class errors: the remote call failed or returned zero/incomplete
authorization data. -/
def AuthError.isFetchClass : AuthError → Bool
  | .fetchFailed _ => true
  | .noAuthorizationData => true
  | _ => false

/-- Decode-class errors: the token was present but malformed. -/
def AuthError.isDecodeClass : AuthError → Bool
  | .invalidToken => true
  | .missingSeparator => true
  | _ => false

/-- The result of one `gat` (`funcGetAuthorizationToken`) invocation:
`(token *string, expiry *time.Time, err error)`, i.e. either an error or a
possibly-nil token pointer with a possibly-nil expiry pointer. -/
abbrev GatOutcome := Except AuthError (Option Bytes × Option Int)

/-- `ecrAuthenticator`: the early-expiry margin and the atomic cache slot
(`atomic.Pointer[cachedAuthConfig]`, nil when unset). The bound fetch
function is supplied per call as the outcome the environment would give it
(the closure itself does no computation beyond `privateGat`/`publicGat`,
modelled separately). -/
structure EcrAuthenticator where
  earlyExpiry : Int
  cache : Option CachedAuthConfig
deriving DecidableEq, Repr

/-- The fast-path check of `Authorization`: the cached credential, when a
snapshot is present and `time.Now().Before(cached.ExpiresAt)`. -/
def cacheHit (a : EcrAuthenticator) (now : Int) : Option AuthConfig :=
  match a.cache with
  | some cached => if now < cached.ExpiresAt then some cached.AuthConfig else none
  | none => none

/-- The outcome of one `Authorization()` call: its return value, the
authenticator state after the call, and how many times the bound fetch
function was invoked during the call. -/
structure AuthOutcome where
  result : Except AuthError AuthConfig
  state : EcrAuthenticator
  fetchCount : Nat
deriving Repr

/-- The slow path of `Authorization`: invoke the bound fetch function,
base64-decode the token (`aws.ToString` of the possibly-nil pointer), cut it
at the first `:` (byte 58), then store
`{AuthConfig, ExpiresAt: aws.ToTime(expiry).Add(-earlyExpiry)}` in the cache
and return the decoded credential. -/
def authorizationFetch (a : EcrAuthenticator) (gat : GatOutcome) : AuthOutcome :=
  match gat with
  | .error err => ⟨.error err, a, 1⟩
  | .ok (token, expiry) =>
    match base64Decode (awsToString token) with
    | none => ⟨.error .invalidToken, a, 1⟩
    | some tokenBytes =>
      match cut tokenBytes 58 with
      | none => ⟨.error .missingSeparator, a, 1⟩
      | some (username, password) =>
        let authConfig : AuthConfig := ⟨username, password⟩
        ⟨.ok authConfig,
         { a with cache := some ⟨authConfig, awsToTime expiry - a.earlyExpiry⟩ },
         1⟩

/-- `(*ecrAuthenticator).Authorization`: return the cached credential when a
snapshot exists and has not expired, otherwise fetch, decode and cache. -/
def Authorization (a : EcrAuthenticator) (now : Int) (gat : GatOutcome) : AuthOutcome :=
  match cacheHit a now with
  | some authConfig => ⟨.ok authConfig, a, 0⟩
  | none => authorizationFetch a gat

/-- What the remote `(*ecr.Client).GetAuthorizationToken` call yields:
either an error or an output whose `AuthorizationData` is a list of entries
each holding a possibly-nil token and a possibly-nil expiry. -/
structure AuthorizationDataEntry where
  AuthorizationToken : Option Bytes
  ExpiresAt : Option Int
deriving DecidableEq, Repr

/-- `ecr.GetAuthorizationTokenOutput`, restricted to the field the closure
reads. -/
structure GetAuthorizationTokenOutput where
  AuthorizationData : List AuthorizationDataEntry
deriving DecidableEq, Repr

/-- The closure bound by `NewAuthenticatorWithEarlyExpiry`: a remote error is
wrapped into a fetch failure; an output with zero entries or a nil token in
the first entry is "returned no authorization data"; otherwise the first
entry's token and expiry are returned. -/
def privateGat (remote : Except Bytes GetAuthorizationTokenOutput) : GatOutcome :=
  match remote with
  | .error e => .error (.fetchFailed e)
  | .ok out =>
    match out.AuthorizationData with
    | [] => .error .noAuthorizationData
    | entry :: _ =>
      match entry.AuthorizationToken with
      | none => .error .noAuthorizationData
      | some _ => .ok (entry.AuthorizationToken, entry.ExpiresAt)

/-! ### Keychain (`Resolve` with double-checked cache population) -/

/-- The registry descriptor produced by `Parse`: the fields `Resolve` reads
(`DNSSuffix`, `Region`, `FIPS`). -/
structure Reg where
  DNSSuffix : String
  Region : String
  FIPS : Bool
deriving DecidableEq, Repr

/-- The well-known public-registry domain compared against `reg.DNSSuffix`. -/
def ecrPublicDomain : String := "public.ecr.aws"

/-- An `authn.Authenticator` value as the keychain handles it: either
`authn.Anonymous`, or an `ecrAuthenticator` built by one of the two
constructors. `id` models pointer identity: every constructor call
allocates a fresh one, so equality of values is pointer equality. The
remaining fields record the configuration baked into the bound client
(public vs private constructor, region, FIPS endpoint flag, early-expiry
margin). -/
inductive Authenticator where
  | anonymous
  | ecrAuth (id : Nat) (isPublic : Bool) (region : String) (fips : Bool) (earlyExpiry : Int)
deriving DecidableEq, Repr

/-- `ecrKeychain`: the key → authenticator map (as an association list where
lookup takes the most recent binding) and the early-expiry margin passed to
authenticator constructors. `nextId` models the allocator supplying fresh
pointer identities. The `aws.Config` is configuration data the resolution
logic never inspects and is omitted. -/
structure EcrKeychain where
  cache : List (String × Authenticator)
  earlyExpiry : Int
  nextId : Nat
deriving DecidableEq, Repr

/-- Go map indexing `keychain.cache[key]` over the association-list model. -/
def lookup : List (String × Authenticator) → String → Option Authenticator
  | [], _ => none
  | (k, v) :: rest, key => if k = key then some v else lookup rest key

/-- The cache key `reg.DNSSuffix + "/" + reg.Region + "/" +
strconv.FormatBool(reg.FIPS)`. -/
def cacheKey (reg : Reg) : String :=
  reg.DNSSuffix ++ "/" ++ reg.Region ++ "/" ++ (if reg.FIPS then "true" else "false")

/-- `(*ecrKeychain).Resolve`: parse the registry hostname (the `Parse`
function lives outside the files under verification and is passed in as a
parameter), degrade to `authn.Anonymous` when unrecognized, otherwise look
the cache key up under the read lock, construct the public or private
authenticator variant on a miss, re-check under the write lock and publish.
Returns `(authenticator, error, updated keychain)`; the error is the Go
`error` result, which is nil on every path. -/
def Resolve (parse : String → Option Reg) (keychain : EcrKeychain)
    (resource : String) : Authenticator × Option String × EcrKeychain :=
  match parse resource with
  | none => (Authenticator.anonymous, none, keychain)
  | some reg =>
    let key := cacheKey reg
    match lookup keychain.cache key with
    | some auth => (auth, none, keychain)
    | none =>
      let auth :=
        if reg.DNSSuffix = ecrPublicDomain then
          Authenticator.ecrAuth keychain.nextId true reg.Region false keychain.earlyExpiry
        else
          Authenticator.ecrAuth keychain.nextId false reg.Region reg.FIPS keychain.earlyExpiry
      match lookup keychain.cache key with
      | some existing => (existing, none, keychain)
      | none =>
        (auth, none,
         { keychain with
             cache := (key, auth) :: keychain.cache
             nextId := keychain.nextId + 1 })

/-- The invariant that the keychain map binds each cache key at most once. -/
def keysNodup (keychain : EcrKeychain) : Prop :=
  (keychain.cache.map Prod.fst).Nodup

/-! ### Constants and the max-TTL-clamping variant -/

/-- One minute in nanoseconds (Go `time.Minute`). -/
def nanosecondsPerMinute : Int := 60000000000

/-- `DefaultEarlyExpiry = 15 * time.Minute`. -/
def DefaultEarlyExpiry : Int := 15 * nanosecondsPerMinute

/-- Modelled from the spec: the default of the maximum-token-lifetime clamp,
"60 minutes", belonging to the max-TTL-clamping authenticator variant whose
source is not among the files under verification. -/
def DefaultMaxTTL : Int := 60 * nanosecondsPerMinute

/-- Modelled from the spec: the slow path of the max-TTL-clamping
authenticator variant, whose source is not among the files under
verification. Per the spec it computes the effective expiry as the plain
variant does and "additionally clamp[s] expiry to `now + maxTTL` if the
server's expiry would exceed that bound". -/
def authorizationFetchClamped (a : EcrAuthenticator) (maxTTL now : Int)
    (gat : GatOutcome) : AuthOutcome :=
  match gat with
  | .error err => ⟨.error err, a, 1⟩
  | .ok (token, expiry) =>
    match base64Decode (awsToString token) with
    | none => ⟨.error .invalidToken, a, 1⟩
    | some tokenBytes =>
      match cut tokenBytes 58 with
      | none => ⟨.error .missingSeparator, a, 1⟩
      | some (username, password) =>
        let authConfig : AuthConfig := ⟨username, password⟩
        let effective : Int :=
          if now + maxTTL < awsToTime expiry then now + maxTTL
          else awsToTime expiry - a.earlyExpiry
        ⟨.ok authConfig, { a with cache := some ⟨authConfig, effective⟩ }, 1⟩

/-- Modelled from the spec: `Authorization()` of the max-TTL-clamping
variant, identical to the plain variant apart from the clamped effective
expiry. -/
def AuthorizationClamped (a : EcrAuthenticator) (maxTTL now : Int)
    (gat : GatOutcome) : AuthOutcome :=
  match cacheHit a now with
  | some authConfig => ⟨.ok authConfig, a, 0⟩
  | none => authorizationFetchClamped a maxTTL now gat

/-! ### Helper lemmas -/

/-- `cut` at the first occurrence: splitting `u ++ sep :: p` where `sep`
does not occur in `u` yields exactly `(u, p)`. -/
theorem cut_of_split (sep : Nat) (u p : Bytes) (hu : sep ∉ u) :
    cut (u ++ sep :: p) sep = some (u, p) := by
  induction u with
  | nil => simp [cut]
  | cons c rest ih =>
    simp only [List.mem_cons, not_or] at hu
    simp only [List.cons_append, cut, List.append_eq]
    rw [if_neg (fun h => hu.1 h.symm), ih hu.2]

/-- `cut` fails exactly on input without the separator. -/
theorem cut_of_no_sep (sep : Nat) (s : Bytes) (h : sep ∉ s) : cut s sep = none := by
  induction s with
  | nil => rfl
  | cons c rest ih =>
    simp only [List.mem_cons, not_or] at h
    simp only [cut]
    rw [if_neg (fun hc => h.1 hc.symm), ih h.2]

/-- Bytes of the base64 alphabet are never a newline, carriage return or pad. -/
theorem sextetToChar_not_special (n : Nat) :
    sextetToChar n ≠ 10 ∧ sextetToChar n ≠ 13 ∧ sextetToChar n ≠ 61 := by
  unfold sextetToChar
  split_ifs <;> omega

/-- Decoding inverts encoding on each 6-bit value. -/
theorem charToSextet_sextetToChar : ∀ n < 64, charToSextet (sextetToChar n) = some n := by
  decide

/-- A byte that is neither `\n` nor `\r` survives the decoder's filter. -/
theorem filter_keep (c : Nat) (h10 : c ≠ 10) (h13 : c ≠ 13) (l : Bytes) :
    (c :: l).filter (fun b => decide (b ≠ 10 ∧ b ≠ 13)) =
      c :: l.filter (fun b => decide (b ≠ 10 ∧ b ≠ 13)) := by
  simp [List.filter_cons, h10, h13]

/-- Encoded output contains nothing the decoder's filter strips. -/
theorem base64Encode_filter (l : Bytes) :
    (base64Encode l).filter (fun b => decide (b ≠ 10 ∧ b ≠ 13)) = base64Encode l := by
  induction l using base64Encode.induct with
  | case1 => rfl
  | case2 b1 =>
    rw [base64Encode]
    rw [filter_keep _ (sextetToChar_not_special _).1 (sextetToChar_not_special _).2.1]
    rw [filter_keep _ (sextetToChar_not_special _).1 (sextetToChar_not_special _).2.1]
    rw [filter_keep 61 (by omega) (by omega), filter_keep 61 (by omega) (by omega)]
    rfl
  | case3 b1 b2 =>
    rw [base64Encode]
    rw [filter_keep _ (sextetToChar_not_special _).1 (sextetToChar_not_special _).2.1]
    rw [filter_keep _ (sextetToChar_not_special _).1 (sextetToChar_not_special _).2.1]
    rw [filter_keep _ (sextetToChar_not_special _).1 (sextetToChar_not_special _).2.1]
    rw [filter_keep 61 (by omega) (by omega)]
    rfl
  | case4 b1 b2 b3 rest ih =>
    rw [base64Encode]
    rw [filter_keep _ (sextetToChar_not_special _).1 (sextetToChar_not_special _).2.1]
    rw [filter_keep _ (sextetToChar_not_special _).1 (sextetToChar_not_special _).2.1]
    rw [filter_keep _ (sextetToChar_not_special _).1 (sextetToChar_not_special _).2.1]
    rw [filter_keep _ (sextetToChar_not_special _).1 (sextetToChar_not_special _).2.1]
    rw [ih]

/-- The quantum decoder inverts the encoder on byte strings. -/
theorem b64DecodeAux_encode (l : Bytes) (h : ∀ b ∈ l, b < 256) :
    b64DecodeAux (base64Encode l) = some l := by
  induction l using base64Encode.induct with
  | case1 => rfl
  | case2 b1 =>
    have hb1 : b1 < 256 := h b1 (by simp)
    have e1 : charToSextet (sextetToChar (b1 / 4)) = some (b1 / 4) :=
      charToSextet_sextetToChar _ (by omega)
    have e2 : charToSextet (sextetToChar (b1 % 4 * 16)) = some (b1 % 4 * 16) :=
      charToSextet_sextetToChar _ (by omega)
    simp [base64Encode, b64DecodeAux, e1, e2]
    omega
  | case3 b1 b2 =>
    have hb1 : b1 < 256 := h b1 (by simp)
    have hb2 : b2 < 256 := h b2 (by simp)
    have e1 : charToSextet (sextetToChar (b1 / 4)) = some (b1 / 4) :=
      charToSextet_sextetToChar _ (by omega)
    have e2 : charToSextet (sextetToChar (b1 % 4 * 16 + b2 / 16)) =
        some (b1 % 4 * 16 + b2 / 16) :=
      charToSextet_sextetToChar _ (by omega)
    have e3 : charToSextet (sextetToChar (b2 % 16 * 4)) = some (b2 % 16 * 4) :=
      charToSextet_sextetToChar _ (by omega)
    simp [base64Encode, b64DecodeAux, e1, e2, e3,
          if_neg (sextetToChar_not_special (b2 % 16 * 4)).2.2]
    omega
  | case4 b1 b2 b3 rest ih =>
    have hb1 : b1 < 256 := h b1 (by simp)
    have hb2 : b2 < 256 := h b2 (by simp)
    have hb3 : b3 < 256 := h b3 (by simp)
    have hrest : ∀ b ∈ rest, b < 256 := fun b hb => h b (by simp [hb])
    have e1 : charToSextet (sextetToChar (b1 / 4)) = some (b1 / 4) :=
      charToSextet_sextetToChar _ (by omega)
    have e2 : charToSextet (sextetToChar (b1 % 4 * 16 + b2 / 16)) =
        some (b1 % 4 * 16 + b2 / 16) :=
      charToSextet_sextetToChar _ (by omega)
    have e3 : charToSextet (sextetToChar (b2 % 16 * 4 + b3 / 64)) =
        some (b2 % 16 * 4 + b3 / 64) :=
      charToSextet_sextetToChar _ (by omega)
    have e4 : charToSextet (sextetToChar (b3 % 64)) = some (b3 % 64) :=
      charToSextet_sextetToChar _ (by omega)
    simp only [base64Encode, b64DecodeAux, e1, e2, e3, e4,
               if_neg (sextetToChar_not_special (b3 % 64)).2.2, ih hrest,
               Option.some.injEq, List.cons.injEq, and_true]
    omega

/-- Go's `base64.StdEncoding` decoder inverts its encoder on byte strings. -/
theorem base64Decode_encode (l : Bytes) (h : ∀ b ∈ l, b < 256) :
    base64Decode (base64Encode l) = some l := by
  rw [base64Decode, base64Encode_filter, b64DecodeAux_encode l h]

/-- On a cache miss `Authorization` takes the fetch path. -/
theorem Authorization_of_miss (a : EcrAuthenticator) (now : Int) (g : GatOutcome)
    (h : cacheHit a now = none) : Authorization a now g = authorizationFetch a g := by
  simp [Authorization, h]

/-- On a hit `Authorization` returns the cached credential, fetch-free. -/
theorem Authorization_of_hit (a : EcrAuthenticator) (now : Int) (g : GatOutcome)
    (snap : CachedAuthConfig) (hc : a.cache = some snap) (ht : now < snap.ExpiresAt) :
    Authorization a now g = ⟨.ok snap.AuthConfig, a, 0⟩ := by
  have hhit : cacheHit a now = some snap.AuthConfig := by simp [cacheHit, hc, ht]
  simp [Authorization, hhit]

/-- The fetch path on a successful fetch whose token decodes and splits:
return the credential and cache it with the margin-adjusted expiry. -/
theorem authorizationFetch_ok (a : EcrAuthenticator) (tok : Option Bytes)
    (expiry : Option Int) (bs u p : Bytes)
    (hdec : base64Decode (awsToString tok) = some bs)
    (hcut : cut bs 58 = some (u, p)) :
    authorizationFetch a (.ok (tok, expiry)) =
      ⟨.ok ⟨u, p⟩,
       { a with cache := some ⟨⟨u, p⟩, awsToTime expiry - a.earlyExpiry⟩ }, 1⟩ := by
  simp [authorizationFetch, hdec, hcut]

/-- The fetch path on a token that is not valid base64. -/
theorem authorizationFetch_invalid (a : EcrAuthenticator) (tok : Option Bytes)
    (expiry : Option Int) (hdec : base64Decode (awsToString tok) = none) :
    authorizationFetch a (.ok (tok, expiry)) = ⟨.error .invalidToken, a, 1⟩ := by
  simp [authorizationFetch, hdec]

/-- The fetch path on a decoded token that has no `:` separator. -/
theorem authorizationFetch_no_sep (a : EcrAuthenticator) (tok : Option Bytes)
    (expiry : Option Int) (bs : Bytes)
    (hdec : base64Decode (awsToString tok) = some bs) (hcut : cut bs 58 = none) :
    authorizationFetch a (.ok (tok, expiry)) = ⟨.error .missingSeparator, a, 1⟩ := by
  simp [authorizationFetch, hdec, hcut]

/-- The fetch path calls the bound fetch function exactly once. -/
theorem authorizationFetch_fetchCount (a : EcrAuthenticator) (g : GatOutcome) :
    (authorizationFetch a g).fetchCount = 1 := by
  rcases g with e | ⟨tok, expiry⟩
  · rfl
  · cases hdec : base64Decode (awsToString tok) with
    | none => rw [authorizationFetch_invalid a tok expiry hdec]
    | some bs =>
      cases hcut : cut bs 58 with
      | none => rw [authorizationFetch_no_sep a tok expiry bs hdec hcut]
      | some up =>
        obtain ⟨u, p⟩ := up
        rw [authorizationFetch_ok a tok expiry bs u p hdec hcut]

/-- One `Authorization` call never invokes the fetch function twice. -/
theorem Authorization_fetchCount_le_one (a : EcrAuthenticator) (now : Int)
    (g : GatOutcome) : (Authorization a now g).fetchCount ≤ 1 := by
  unfold Authorization
  cases cacheHit a now with
  | some c => exact Nat.zero_le 1
  | none => exact Nat.le_of_eq (authorizationFetch_fetchCount a g)

/-- On a cache miss the clamping variant takes its fetch path. -/
theorem AuthorizationClamped_of_miss (a : EcrAuthenticator) (maxTTL now : Int)
    (g : GatOutcome) (h : cacheHit a now = none) :
    AuthorizationClamped a maxTTL now g = authorizationFetchClamped a maxTTL now g := by
  simp [AuthorizationClamped, h]

/-- The clamping variant's fetch path on a successful, well-formed fetch. -/
theorem authorizationFetchClamped_ok (a : EcrAuthenticator) (maxTTL now : Int)
    (tok : Option Bytes) (expiry : Option Int) (bs u p : Bytes)
    (hdec : base64Decode (awsToString tok) = some bs)
    (hcut : cut bs 58 = some (u, p)) :
    authorizationFetchClamped a maxTTL now (.ok (tok, expiry)) =
      ⟨.ok ⟨u, p⟩,
       { a with cache := some ⟨⟨u, p⟩,
           if now + maxTTL < awsToTime expiry then now + maxTTL
           else awsToTime expiry - a.earlyExpiry⟩ }, 1⟩ := by
  simp [authorizationFetchClamped, hdec, hcut]

/-- The clamping variant's fetch path on a token that is not valid base64. -/
theorem authorizationFetchClamped_invalid (a : EcrAuthenticator) (maxTTL now : Int)
    (tok : Option Bytes) (expiry : Option Int)
    (hdec : base64Decode (awsToString tok) = none) :
    authorizationFetchClamped a maxTTL now (.ok (tok, expiry)) =
      ⟨.error .invalidToken, a, 1⟩ := by
  simp [authorizationFetchClamped, hdec]

/-- The clamping variant's fetch path on a decoded token without `:`. -/
theorem authorizationFetchClamped_no_sep (a : EcrAuthenticator) (maxTTL now : Int)
    (tok : Option Bytes) (expiry : Option Int) (bs : Bytes)
    (hdec : base64Decode (awsToString tok) = some bs) (hcut : cut bs 58 = none) :
    authorizationFetchClamped a maxTTL now (.ok (tok, expiry)) =
      ⟨.error .missingSeparator, a, 1⟩ := by
  simp [authorizationFetchClamped, hdec, hcut]

/-- A failed association-list lookup means the key is absent. -/
theorem lookup_eq_none_iff (l : List (String × Authenticator)) (key : String) :
    lookup l key = none ↔ key ∉ l.map Prod.fst := by
  induction l with
  | nil => simp [lookup]
  | cons kv rest ih =>
    obtain ⟨k0, v0⟩ := kv
    simp only [lookup, List.map_cons, List.mem_cons, not_or]
    by_cases h : k0 = key
    · subst h
      simp
    · rw [if_neg h, ih]
      constructor
      · intro hn
        exact ⟨fun hk => h hk.symm, hn⟩
      · intro hn
        exact hn.2

/-- Lookup finds a freshly prepended binding. -/
theorem lookup_cons_self (key : String) (v : Authenticator)
    (l : List (String × Authenticator)) : lookup ((key, v) :: l) key = some v := by
  simp [lookup]

/-! ### Claims -/

/-- C10: whenever the cached snapshot is non-empty and the current time is
strictly before its `ExpiresAt`, `Authorization()` returns exactly the
cached `AuthConfig` and modifies no authenticator state: the snapshot after
the call is identical to the one before, and the fetch function is not
invoked. -/
theorem cache_hit_is_pure_read (a : EcrAuthenticator) (now : Int)
    (g : GatOutcome) (snap : CachedAuthConfig)
    (hc : a.cache = some snap) (ht : now < snap.ExpiresAt) :
    Authorization a now g = ⟨.ok snap.AuthConfig, a, 0⟩ :=
  Authorization_of_hit a now g snap hc ht

/-- Witness for C10 at a concrete warm cache. -/
theorem cache_hit_is_pure_read_witness :
    Authorization ⟨3, some ⟨⟨[97], [98]⟩, 10⟩⟩ 5 (.error .noAuthorizationData)
      = ⟨.ok ⟨[97], [98]⟩, ⟨3, some ⟨⟨[97], [98]⟩, 10⟩⟩, 0⟩ :=
  cache_hit_is_pure_read ⟨3, some ⟨⟨[97], [98]⟩, 10⟩⟩ 5
    (.error .noAuthorizationData) ⟨⟨[97], [98]⟩, 10⟩ rfl (by decide)

/-- C2: if a first `Authorization()` call succeeds, leaving a cached
snapshot with expiry `E`, and a second call runs at a time strictly before
`E`, then the second call returns the cached credential fetch-free and the
bound fetch function runs at most once across the two calls. -/
theorem cache_hit_avoids_fetch (a : EcrAuthenticator) (now1 now2 : Int)
    (g1 g2 : GatOutcome) (c : AuthConfig) (snap : CachedAuthConfig)
    (hok : (Authorization a now1 g1).result = .ok c)
    (hsnap : (Authorization a now1 g1).state.cache = some snap)
    (hbefore : now2 < snap.ExpiresAt) :
    (Authorization (Authorization a now1 g1).state now2 g2).result
        = .ok snap.AuthConfig ∧
    (Authorization (Authorization a now1 g1).state now2 g2).fetchCount = 0 ∧
    (Authorization a now1 g1).fetchCount
        + (Authorization (Authorization a now1 g1).state now2 g2).fetchCount ≤ 1 := by
  have h2 := Authorization_of_hit (Authorization a now1 g1).state now2 g2 snap hsnap hbefore
  refine ⟨by rw [h2], by rw [h2], ?_⟩
  rw [h2]
  show (Authorization a now1 g1).fetchCount + 0 ≤ 1
  have h1 := Authorization_fetchCount_le_one a now1 g1
  omega

/-- Witness for C2: a cold authenticator fetches once, then a second call
one time unit later is served from the cache. -/
theorem cache_hit_avoids_fetch_witness :
    (Authorization (Authorization ⟨2, none⟩ 0
        (.ok (some (base64Encode [97, 58, 98]), some 100))).state 1 (.error .invalidToken)).result
      = .ok (⟨⟨[97], [98]⟩, 98⟩ : CachedAuthConfig).AuthConfig ∧
    (Authorization (Authorization ⟨2, none⟩ 0
        (.ok (some (base64Encode [97, 58, 98]), some 100))).state 1 (.error .invalidToken)).fetchCount = 0 ∧
    (Authorization ⟨2, none⟩ 0
        (.ok (some (base64Encode [97, 58, 98]), some 100))).fetchCount
      + (Authorization (Authorization ⟨2, none⟩ 0
        (.ok (some (base64Encode [97, 58, 98]), some 100))).state 1 (.error .invalidToken)).fetchCount ≤ 1 :=
  cache_hit_avoids_fetch ⟨2, none⟩ 0 1
    (.ok (some (base64Encode [97, 58, 98]), some 100)) (.error .invalidToken)
    ⟨[97], [98]⟩ ⟨⟨[97], [98]⟩, 98⟩ rfl rfl (by decide)

/-- C3: on a successful fetch with server-declared expiry `T`, the snapshot
`Authorization()` caches has `ExpiresAt = T - earlyExpiry`, so the entry
counts as expired from `T - earlyExpiry` onward rather than at `T`. -/
theorem early_expiry_margin_honored (a : EcrAuthenticator) (now : Int)
    (tok : Option Bytes) (T : Int) (cfg : AuthConfig)
    (hmiss : cacheHit a now = none)
    (hok : (Authorization a now (.ok (tok, some T))).result = .ok cfg) :
    ∃ snap : CachedAuthConfig,
      (Authorization a now (.ok (tok, some T))).state.cache = some snap ∧
      snap.ExpiresAt = T - a.earlyExpiry ∧
      ∀ t : Int, T - a.earlyExpiry ≤ t →
        cacheHit (Authorization a now (.ok (tok, some T))).state t = none := by
  rw [Authorization_of_miss _ _ _ hmiss] at hok ⊢
  cases hdec : base64Decode (awsToString tok) with
  | none =>
    rw [authorizationFetch_invalid _ _ _ hdec] at hok
    exact absurd hok (by simp)
  | some bs =>
    cases hcut : cut bs 58 with
    | none =>
      rw [authorizationFetch_no_sep _ _ _ _ hdec hcut] at hok
      exact absurd hok (by simp)
    | some up =>
      obtain ⟨u, p⟩ := up
      rw [authorizationFetch_ok _ _ _ _ _ _ hdec hcut]
      refine ⟨⟨⟨u, p⟩, awsToTime (some T) - a.earlyExpiry⟩, rfl, by simp [awsToTime], ?_⟩
      intro t ht
      simp only [awsToTime, Option.getD_some] at ht ⊢
      simp [cacheHit]
      omega

/-- Witness for C3: margin 2 against a declared expiry of 100 caches an
entry expiring at 98. -/
theorem early_expiry_margin_honored_witness :
    ∃ snap : CachedAuthConfig,
      (Authorization ⟨2, none⟩ 0
          (.ok (some (base64Encode [97, 58, 98]), some 100))).state.cache = some snap ∧
      snap.ExpiresAt = 100 - (⟨2, none⟩ : EcrAuthenticator).earlyExpiry ∧
      ∀ t : Int, 100 - (⟨2, none⟩ : EcrAuthenticator).earlyExpiry ≤ t →
        cacheHit (Authorization ⟨2, none⟩ 0
          (.ok (some (base64Encode [97, 58, 98]), some 100))).state t = none :=
  early_expiry_margin_honored ⟨2, none⟩ 0
    (some (base64Encode [97, 58, 98])) 100 ⟨[97], [98]⟩ rfl rfl

/-- C4: when the fetched token is the standard base64 encoding of a byte
string `u ++ ":" ++ p` where `u` is `:`-free (the prefix before the first
`:`; `p` may itself contain `:`), `Authorization()` returns the credential
`(username = u, password = p)`. -/
theorem token_decode_splits_on_first_colon (a : EcrAuthenticator) (now : Int)
    (expiry : Option Int) (u p : Bytes)
    (hmiss : cacheHit a now = none) (hu : (58 : Nat) ∉ u)
    (hvalid : ∀ b ∈ u ++ 58 :: p, b < 256) :
    (Authorization a now
        (.ok (some (base64Encode (u ++ 58 :: p)), expiry))).result = .ok ⟨u, p⟩ := by
  rw [Authorization_of_miss _ _ _ hmiss]
  have hdec : base64Decode (awsToString (some (base64Encode (u ++ 58 :: p))))
      = some (u ++ 58 :: p) := by
    simp only [awsToString, Option.getD_some]
    exact base64Decode_encode _ hvalid
  rw [authorizationFetch_ok _ _ _ _ _ _ hdec (cut_of_split 58 u p hu)]

/-- Witness for C4: token = base64("alice:s3cr3t") yields
("alice", "s3cr3t"). -/
theorem token_decode_splits_on_first_colon_witness :
    (Authorization ⟨0, none⟩ 0
        (.ok (some (base64Encode
          ([97, 108, 105, 99, 101] ++ 58 :: [115, 51, 99, 114, 51, 116])), some 100))).result
      = .ok ⟨[97, 108, 105, 99, 101], [115, 51, 99, 114, 51, 116]⟩ :=
  token_decode_splits_on_first_colon ⟨0, none⟩ 0 (some 100)
    [97, 108, 105, 99, 101] [115, 51, 99, 114, 51, 116] rfl (by decide) (by decide)

/-- C5: when the fetched token is not valid base64, or decodes to a byte
string without `:`, `Authorization()` fails with a decode-class error and
the cached snapshot is exactly what it was before the call. -/
theorem decode_failure_mutates_nothing (a : EcrAuthenticator) (now : Int)
    (tok : Option Bytes) (expiry : Option Int)
    (hmiss : cacheHit a now = none)
    (hbad : base64Decode (awsToString tok) = none ∨
      ∃ bs, base64Decode (awsToString tok) = some bs ∧ (58 : Nat) ∉ bs) :
    ∃ err : AuthError,
      (Authorization a now (.ok (tok, expiry))).result = .error err ∧
      err.isDecodeClass = true ∧
      (Authorization a now (.ok (tok, expiry))).state.cache = a.cache := by
  rw [Authorization_of_miss _ _ _ hmiss]
  rcases hbad with hdec | ⟨bs, hdec, hbs⟩
  · rw [authorizationFetch_invalid _ _ _ hdec]
    exact ⟨.invalidToken, rfl, rfl, rfl⟩
  · rw [authorizationFetch_no_sep _ _ _ _ hdec (cut_of_no_sep 58 bs hbs)]
    exact ⟨.missingSeparator, rfl, rfl, rfl⟩

/-- Witness for C5: the one-byte token `!` is not valid base64 and leaves a
cold cache cold. -/
theorem decode_failure_mutates_nothing_witness :
    ∃ err : AuthError,
      (Authorization ⟨7, none⟩ 0 (.ok (some [33], some 100))).result = .error err ∧
      err.isDecodeClass = true ∧
      (Authorization ⟨7, none⟩ 0
          (.ok (some [33], some 100))).state.cache = (⟨7, none⟩ : EcrAuthenticator).cache :=
  decode_failure_mutates_nothing ⟨7, none⟩ 0 (some [33]) (some 100) rfl (Or.inl rfl)

/-- C6: when the remote call fails, or succeeds with an empty
authorization-data list or a nil token in its first entry, `Authorization()`
over the closure bound by `NewAuthenticatorWithEarlyExpiry` fails with a
fetch-class error, invokes the fetch exactly once (no retry), and leaves the
cached snapshot unchanged. -/
theorem fetch_failure_mutates_nothing (a : EcrAuthenticator) (now : Int)
    (remote : Except Bytes GetAuthorizationTokenOutput)
    (hmiss : cacheHit a now = none)
    (hbad : (∃ e, remote = .error e) ∨
      ∃ out, remote = .ok out ∧
        (out.AuthorizationData = [] ∨
          ∃ entry rest, out.AuthorizationData = entry :: rest ∧
            entry.AuthorizationToken = none)) :
    ∃ err : AuthError,
      (Authorization a now (privateGat remote)).result = .error err ∧
      err.isFetchClass = true ∧
      (Authorization a now (privateGat remote)).fetchCount = 1 ∧
      (Authorization a now (privateGat remote)).state.cache = a.cache := by
  rw [Authorization_of_miss _ _ _ hmiss]
  have hg : ∃ err, privateGat remote = .error err ∧ err.isFetchClass = true := by
    rcases hbad with ⟨e, rfl⟩ | ⟨out, rfl, hout⟩
    · exact ⟨.fetchFailed e, rfl, rfl⟩
    · rcases hout with hemp | ⟨entry, rest, heq, htok⟩
      · exact ⟨.noAuthorizationData, by simp [privateGat, hemp], rfl⟩
      · exact ⟨.noAuthorizationData, by simp [privateGat, heq, htok], rfl⟩
  obtain ⟨err, hg, hcl⟩ := hg
  rw [hg]
  exact ⟨err, rfl, hcl, rfl, rfl⟩

/-- Witness for C6: a failed remote call surfaces as a wrapped fetch error
against a cold cache. -/
theorem fetch_failure_mutates_nothing_witness :
    ∃ err : AuthError,
      (Authorization ⟨7, none⟩ 0 (privateGat (.error [120]))).result = .error err ∧
      err.isFetchClass = true ∧
      (Authorization ⟨7, none⟩ 0 (privateGat (.error [120]))).fetchCount = 1 ∧
      (Authorization ⟨7, none⟩ 0
          (privateGat (.error [120]))).state.cache = (⟨7, none⟩ : EcrAuthenticator).cache :=
  fetch_failure_mutates_nothing ⟨7, none⟩ 0 (.error [120]) rfl (Or.inl ⟨[120], rfl⟩)

/-- C9: a successful fetch with a valid token but a nil expiry pointer still
returns the decoded credential, and caches a snapshot whose `ExpiresAt` is
the zero time minus the early-expiry margin — already expired — so every
later call (at any non-negative time, the margin being non-negative)
takes the fetch path again. -/
theorem nil_expiry_caches_expired_entry (a : EcrAuthenticator) (now : Int)
    (tok : Option Bytes) (bs u p : Bytes)
    (hmiss : cacheHit a now = none)
    (hdec : base64Decode (awsToString tok) = some bs)
    (hcut : cut bs 58 = some (u, p)) :
    (Authorization a now (.ok (tok, none))).result = .ok ⟨u, p⟩ ∧
    (Authorization a now (.ok (tok, none))).state.cache
        = some ⟨⟨u, p⟩, 0 - a.earlyExpiry⟩ ∧
    (0 ≤ a.earlyExpiry → ∀ t : Int, 0 ≤ t → ∀ g : GatOutcome,
      (Authorization (Authorization a now (.ok (tok, none))).state t g).fetchCount = 1) := by
  rw [Authorization_of_miss _ _ _ hmiss]
  rw [authorizationFetch_ok _ _ _ _ _ _ hdec hcut]
  refine ⟨rfl, by simp [awsToTime], ?_⟩
  intro hm t ht g
  have hmiss2 : cacheHit
      { a with cache := some ⟨⟨u, p⟩, awsToTime none - a.earlyExpiry⟩ } t = none := by
    simp only [cacheHit, awsToTime, Option.getD_none]
    rw [if_neg (by omega)]
  rw [Authorization_of_miss _ _ _ hmiss2]
  exact authorizationFetch_fetchCount _ _

/-- Witness for C9: margin 5 and a nil expiry cache an entry expiring at
-5; a call at time 0 fetches again. -/
theorem nil_expiry_caches_expired_entry_witness :
    (Authorization ⟨5, none⟩ 0
        (.ok (some (base64Encode [97, 58, 98]), none))).result = .ok ⟨[97], [98]⟩ ∧
    (Authorization ⟨5, none⟩ 0
        (.ok (some (base64Encode [97, 58, 98]), none))).state.cache
      = some ⟨⟨[97], [98]⟩, 0 - (⟨5, none⟩ : EcrAuthenticator).earlyExpiry⟩ ∧
    (0 ≤ (⟨5, none⟩ : EcrAuthenticator).earlyExpiry → ∀ t : Int, 0 ≤ t →
      ∀ g : GatOutcome,
        (Authorization (Authorization ⟨5, none⟩ 0
          (.ok (some (base64Encode [97, 58, 98]), none))).state t g).fetchCount = 1) :=
  nil_expiry_caches_expired_entry ⟨5, none⟩ 0
    (some (base64Encode [97, 58, 98])) [97, 58, 98] [97] [98] rfl rfl rfl

/-- C8: in the max-TTL-clamping variant, a successful fetch whose
server-declared expiry exceeds `now + maxTTL` caches an entry whose
effective expiry is `now + maxTTL`, not the server's value. -/
theorem max_ttl_clamps_expiry (a : EcrAuthenticator) (maxTTL now : Int)
    (tok : Option Bytes) (T : Int) (cfg : AuthConfig)
    (hmiss : cacheHit a now = none)
    (hok : (AuthorizationClamped a maxTTL now (.ok (tok, some T))).result = .ok cfg)
    (hfar : now + maxTTL < T) :
    ∃ snap : CachedAuthConfig,
      (AuthorizationClamped a maxTTL now (.ok (tok, some T))).state.cache = some snap ∧
      snap.ExpiresAt = now + maxTTL := by
  rw [AuthorizationClamped_of_miss _ _ _ _ hmiss] at hok ⊢
  cases hdec : base64Decode (awsToString tok) with
  | none =>
    rw [authorizationFetchClamped_invalid _ _ _ _ _ hdec] at hok
    exact absurd hok (by simp)
  | some bs =>
    cases hcut : cut bs 58 with
    | none =>
      rw [authorizationFetchClamped_no_sep _ _ _ _ _ _ hdec hcut] at hok
      exact absurd hok (by simp)
    | some up =>
      obtain ⟨u, p⟩ := up
      rw [authorizationFetchClamped_ok _ _ _ _ _ _ _ _ hdec hcut]
      refine ⟨⟨⟨u, p⟩, now + maxTTL⟩, ?_, rfl⟩
      have : (if now + maxTTL < awsToTime (some T) then now + maxTTL
          else awsToTime (some T) - a.earlyExpiry) = now + maxTTL := by
        simp only [awsToTime, Option.getD_some]
        exact if_pos hfar
      rw [this]

/-- Witness for C8 at the default 60-minute max TTL against a declared
expiry twice that far out. -/
theorem max_ttl_clamps_expiry_witness :
    ∃ snap : CachedAuthConfig,
      (AuthorizationClamped ⟨0, none⟩ DefaultMaxTTL 0
          (.ok (some (base64Encode [97, 58, 98]), some (2 * DefaultMaxTTL)))).state.cache
        = some snap ∧
      snap.ExpiresAt = 0 + DefaultMaxTTL :=
  max_ttl_clamps_expiry ⟨0, none⟩ DefaultMaxTTL 0
    (some (base64Encode [97, 58, 98])) (2 * DefaultMaxTTL) ⟨[97], [98]⟩ rfl
    rfl (by decide)

/-- C7: `Resolve` on a hostname the parser does not recognize returns the
anonymous authenticator with a nil error and an untouched keychain, and
`Resolve` returns a nil error on every input. -/
theorem resolve_never_errors (parse : String → Option Reg) (k : EcrKeychain)
    (resource : String) :
    (parse resource = none →
        Resolve parse k resource = (Authenticator.anonymous, none, k)) ∧
    (Resolve parse k resource).2.1 = none := by
  constructor
  · intro h
    simp [Resolve, h]
  · cases hp : parse resource with
    | none => simp [Resolve, hp]
    | some reg =>
      cases hl : lookup k.cache (cacheKey reg) with
      | some a => simp [Resolve, hp, hl]
      | none => simp [Resolve, hp, hl]

/-- Witness for C7: a parser recognizing nothing sends `docker.io` to the
anonymous authenticator. -/
theorem resolve_never_errors_witness :
    ((fun _ : String => (none : Option Reg)) "docker.io" = none →
        Resolve (fun _ => none) ⟨[], 0, 0⟩ "docker.io"
          = (Authenticator.anonymous, none, ⟨[], 0, 0⟩)) ∧
    (Resolve (fun _ => none) ⟨[], 0, 0⟩ "docker.io").2.1 = none :=
  resolve_never_errors (fun _ => none) ⟨[], 0, 0⟩ "docker.io"

/-- C1: two sequential `Resolve` calls on hostnames whose descriptors agree
on `(DNSSuffix, Region, FIPS)` return the same `Authenticator` instance
(the second finds the entry the first published), and resolution preserves
the invariant that the map holds at most one authenticator per cache key. -/
theorem resolve_is_idempotent (parse : String → Option Reg) (k : EcrKeychain)
    (h1 h2 : String) (r1 r2 : Reg)
    (hp1 : parse h1 = some r1) (hp2 : parse h2 = some r2)
    (hsuf : r1.DNSSuffix = r2.DNSSuffix) (hreg : r1.Region = r2.Region)
    (hfips : r1.FIPS = r2.FIPS) :
    (Resolve parse (Resolve parse k h1).2.2 h2).1 = (Resolve parse k h1).1 ∧
    (keysNodup k → keysNodup (Resolve parse (Resolve parse k h1).2.2 h2).2.2) := by
  have hr : r1 = r2 := by
    cases r1; cases r2; simp_all
  subst hr
  cases hl : lookup k.cache (cacheKey r1) with
  | some a =>
    constructor
    · simp [Resolve, hp1, hp2, hl]
    · intro hnd
      simp only [Resolve, hp1, hp2, hl]
      exact hnd
  | none =>
    constructor
    · simp [Resolve, hp1, hp2, hl, lookup_cons_self]
    · intro hnd
      simp only [Resolve, hp1, hp2, hl, lookup_cons_self, keysNodup,
                 List.map_cons, List.nodup_cons] at hnd ⊢
      exact ⟨(lookup_eq_none_iff _ _).mp hl, hnd⟩

/-- Witness for C1: a parser sending every hostname to one descriptor makes
two resolutions of different hostnames share one authenticator. -/
theorem resolve_is_idempotent_witness :
    (Resolve (fun _ => some ⟨"d", "r", false⟩)
        (Resolve (fun _ => some ⟨"d", "r", false⟩) ⟨[], 7, 0⟩ "x").2.2 "y").1
      = (Resolve (fun _ => some ⟨"d", "r", false⟩) ⟨[], 7, 0⟩ "x").1 ∧
    (keysNodup ⟨[], 7, 0⟩ →
      keysNodup (Resolve (fun _ => some ⟨"d", "r", false⟩)
        (Resolve (fun _ => some ⟨"d", "r", false⟩) ⟨[], 7, 0⟩ "x").2.2 "y").2.2) :=
  resolve_is_idempotent (fun _ => some ⟨"d", "r", false⟩) ⟨[], 7, 0⟩ "x" "y"
    ⟨"d", "r", false⟩ ⟨"d", "r", false⟩ rfl rfl rfl rfl rfl

end ECR
